import Mathlib

/-!
Shallow embedding of the Larkooo/flipbot sources (src/utils.ts and
src/App.tsx).  Strings from the TypeScript code are modelled as `List Char`;
JavaScript numbers produced by `parseInt` are modelled as `Option Nat`
(`none` standing for `NaN`); the floating-point running mean is modelled
over `Rat`.  React `useState` cells are gathered into one `AppState` record
and every state-updating callback becomes a pure state-transformer.
-/

namespace Flipbot

/-! ### JavaScript string and number primitives used by utils.ts -/

/-- JavaScript `String.prototype.substring(a, b)` on a `List Char`:
both indices are clamped to `[0, length]` and swapped when `a > b`. -/
def jsSubstring (s : List Char) (a b : Int) : List Char :=
  let n : Int := s.length
  let a' : Nat := (min (max a 0) n).toNat
  let b' : Nat := (min (max b 0) n).toNat
  (s.drop (min a' b')).take (max a' b' - min a' b')

/-- JavaScript one-argument `String.prototype.substring(a)` (up to the end). -/
def jsSubstringFrom (s : List Char) (a : Int) : List Char :=
  jsSubstring s a s.length

/-- Value of one hexadecimal digit, `none` for a non-digit. -/
def hexDigitVal (c : Char) : Option Nat :=
  if '0' ≤ c ∧ c ≤ '9' then some (c.toNat - '0'.toNat)
  else if 'a' ≤ c ∧ c ≤ 'f' then some (c.toNat - 'a'.toNat + 10)
  else if 'A' ≤ c ∧ c ≤ 'F' then some (c.toNat - 'A'.toNat + 10)
  else none

/-- JavaScript `parseInt(s, 16)` restricted to the inputs that occur in
utils.ts (substrings of `0x…` hexadecimal strings, hence no whitespace and
no sign): an optional `0x`/`0X` prefix is skipped, then the maximal leading
run of hex digits is parsed; the result is `NaN` (modelled as `none`) when
that run is empty. -/
def jsParseIntHex (s : List Char) : Option Nat :=
  let t : List Char :=
    match s with
    | '0' :: 'x' :: r => r
    | '0' :: 'X' :: r => r
    | r => r
  let ds := t.takeWhile (fun c => (hexDigitVal c).isSome)
  if ds = [] then none
  else some (ds.foldl (fun acc c => 16 * acc + (hexDigitVal c).getD 0) 0)

/-- JavaScript `arr.slice(-n)`: the `min n length` last elements. -/
def takeLast (n : Nat) (l : List α) : List α :=
  l.drop (l.length - n)

/-! ### utils.ts -/

/-- `maskAddress` from src/utils.ts: drop the `0x` prefix, strip leading
zero characters (`replace(/^0+/, '')`), drop the last 4 characters and
re-attach `0x`. -/
def maskAddress (address : List Char) : List Char :=
  let trimmed := (jsSubstringFrom address 2).dropWhile (fun c => c = '0')
  '0' :: 'x' :: jsSubstring trimmed 0 ((trimmed.length : Int) - 4)

/-- The decoded `Tile` record from src/utils.ts.  `powerup`, `powerupValue`
and `team` come from `parseInt` and may be `NaN` (`none`). -/
structure Tile where
  x : Int
  y : Int
  address : List Char
  powerup : Option Nat
  powerupValue : Option Nat
  team : Option Nat
deriving DecidableEq, Repr

/-- Membership in the `Powerup` enum of src/utils.ts
(`None = 0`, `Multiplier = 1`). -/
def knownPowerup (k : Option Nat) : Prop :=
  k = some 0 ∨ k = some 1

instance (k : Option Nat) : Decidable (knownPowerup k) := by
  unfold knownPowerup; infer_instance

/-- `parseTileModel` from src/utils.ts.  `packedFlipped` is the packed
state string, `xVal`/`yVal` model `model.x?.value` / `model.y?.value`
(`none` when the payload has no such field) and `hashIdx` models
`TILE_HASHES.indexOf(hashedKeys)` (`-1` when the key is unknown; the
table itself lives in src/constants.ts and is treated as a provided
lookup).  `Math.floor(i / 256)` is `Int.fdiv` and the JavaScript
remainder `i % 256` (sign of the dividend) is `Int.tmod`. -/
def parseTileModel (packedFlipped : List Char) (xVal yVal : Option Int)
    (hashIdx : Int) : Tile :=
  let address :=
    if packedFlipped ≠ ['0', 'x', '0'] then maskAddress packedFlipped
    else ['0', 'x', '0']
  let n : Int := packedFlipped.length
  let powerup :=
    if address ≠ ['0', 'x', '0'] then
      jsParseIntHex (jsSubstring packedFlipped (n - 4) (n - 3))
    else some 0
  let powerupValue :=
    if address ≠ ['0', 'x', '0'] then
      jsParseIntHex (jsSubstring packedFlipped (n - 3) (n - 1))
    else some 0
  let team :=
    if address ≠ ['0', 'x', '0'] then
      jsParseIntHex (jsSubstring packedFlipped (n - 1) n)
    else some 0
  { x := xVal.getD (Int.fdiv hashIdx 256)
    y := yVal.getD (Int.tmod hashIdx 256)
    address := address
    powerup := powerup
    powerupValue := powerupValue
    team := team }

/-! ### App.tsx state -/

/-- One entry of `metrics.flipHistory`.  The optional fields are present
with a possibly-`NaN` numeric value (`some v`) or absent (`none`). -/
structure FlipRecord where
  timestamp : Int
  success : Bool
  powerup : Option (Option Nat)
  powerupValue : Option (Option Nat)
deriving DecidableEq, Repr

/-- The `FlipMetrics` state of App.tsx.  `powerups` is the per-kind
statistics object, modelled as a total function from the (possibly
out-of-enum, possibly `NaN`) kind to `(count, values)`. -/
structure FlipMetrics where
  totalFlips : Nat
  successfulFlips : Nat
  failedFlips : Nat
  averageResponseTime : Rat
  powerups : Option Nat → Nat × List (Option Nat)
  flipHistory : List FlipRecord

/-- The `useState` cells of the `App` component that the pipeline mutates. -/
structure AppState where
  pendingFlips : List (Int × Int)
  txLogs : List (List Char × Int)
  metrics : FlipMetrics
  tilePosPending : List (Int × Int)
  tilePosFlipped : List (Int × Int)
  entityUpdateRate : List Rat
  lastUpdateTimestamp : Int

/-- The initial state of every `useState` cell (the mount timestamp is
taken as instant `0`). -/
def initialState : AppState :=
  { pendingFlips := []
    txLogs := []
    metrics :=
      { totalFlips := 0
        successfulFlips := 0
        failedFlips := 0
        averageResponseTime := 0
        powerups := fun _ => (0, [])
        flipHistory := [] }
    tilePosPending := []
    tilePosFlipped := []
    entityUpdateRate := []
    lastUpdateTimestamp := 0 }

/-- `handleEntityUpdated` from App.tsx, for an event that carries the tile
model (the early `return` for other events changes nothing), after
decoding: `account` is `account?.address`, `rand` the `Math.random()`
draw, `now` the `Date.now()` instant. -/
def handleEntityUpdated (account : Option (List Char)) (sampleFactor rand : Rat)
    (now : Int) (tile : Tile) (st : AppState) : AppState :=
  let st0 := { st with lastUpdateTimestamp := now }
  let st1 :=
    if account = some tile.address then
      let m := st0.metrics
      let powerups :=
        if tile.powerup ≠ some 0 then
          fun k =>
            if k = tile.powerup then
              ((m.powerups tile.powerup).1 + 1,
                (m.powerups tile.powerup).2 ++ [tile.powerupValue])
            else m.powerups k
        else m.powerups
      { st0 with
        metrics :=
          { m with
            powerups := powerups
            flipHistory :=
              takeLast 100 (m.flipHistory ++
                [⟨now, true, some tile.powerup, some tile.powerupValue⟩]) } }
    else st0
  if tile.address = ['0', 'x', '0'] ∧ rand < sampleFactor then
    { st1 with
      pendingFlips := st1.pendingFlips ++ [(tile.x, tile.y)]
      tilePosPending := st1.tilePosPending ++ [(tile.x, tile.y)] }
  else st1

/-- Result of the awaited `account.execute` call in `executeFlips`. -/
inductive FlipOutcome where
  | success (txHash : List Char) (resultTime : Int)
  | failure (resultTime : Int)

/-- History record appended per item by the success branch of
`executeFlips` (`powerup: Powerup.None, powerupValue: 0`). -/
def successRecord (t : Int) : FlipRecord :=
  ⟨t, true, some (some 0), some (some 0)⟩

/-- History record appended per item by the failure branch of
`executeFlips` (no powerup fields). -/
def failRecord (t : Int) : FlipRecord :=
  ⟨t, false, none, none⟩

/-- `executeFlips` from App.tsx.  `startTime` is the `Date.now()` read on
entry; the `Date.now()` reads after completion are collapsed to the
outcome's `resultTime`, so the measured elapsed time is
`resultTime - startTime`. -/
def executeFlips (account : Option (List Char)) (flips : List (Int × Int))
    (startTime : Int) (outcome : FlipOutcome) (st : AppState) : AppState :=
  if account = none ∨ flips = [] then st
  else
    match outcome with
    | .success txHash resultTime =>
      let m := st.metrics
      { st with
        txLogs := takeLast 10 (st.txLogs ++ [(txHash, resultTime)])
        metrics :=
          { totalFlips := m.totalFlips + flips.length
            successfulFlips := m.successfulFlips + flips.length
            failedFlips := m.failedFlips
            averageResponseTime :=
              (m.averageResponseTime * (m.totalFlips : Rat) +
                  ((resultTime - startTime : Int) : Rat)) /
                ((m.totalFlips : Rat) + (flips.length : Rat))
            powerups := m.powerups
            flipHistory :=
              takeLast 100 (m.flipHistory ++
                flips.map (fun _ => successRecord resultTime)) }
        tilePosPending :=
          st.tilePosPending.filter
            (fun p => ! flips.any (fun f => f.1 == p.1 && f.2 == p.2))
        tilePosFlipped := st.tilePosFlipped ++ flips }
    | .failure resultTime =>
      { st with
        metrics :=
          { st.metrics with
            totalFlips := st.metrics.totalFlips + flips.length
            failedFlips := st.metrics.failedFlips + flips.length
            flipHistory :=
              takeLast 100 (st.metrics.flipHistory ++
                flips.map (fun _ => failRecord resultTime)) } }

/-- The chunking loop of the pending-flips drain effect in App.tsx
(`for (let i = 0; i < pendingFlips.length; i += chunkSize)`).  With
`k = 0` the JavaScript loop would never terminate; the slider keeps
`chunkSize` in `[1, 20]`, and this model returns `[]` in that
unreachable case. -/
def chunksOf (k : Nat) (l : List (Int × Int)) : List (List (Int × Int)) :=
  if h : l = [] ∨ k = 0 then []
  else l.take k :: chunksOf k (l.drop k)
termination_by l.length
decreasing_by
  push_neg at h
  have hl : 0 < l.length := List.length_pos.mpr h.1
  have hk : 0 < k := Nat.pos_of_ne_zero h.2
  simp only [List.length_drop]
  omega

/-- The dispatch schedule of the drain effect: chunk `i` (0-indexed) is
passed to `executeFlips` after a delay of `i * executionDelay`
milliseconds (`chunks.forEach((chunk, index) => setTimeout(…, index *
executionDelay))`). -/
def drainDispatch (k d : Nat) (l : List (Int × Int)) :
    List (List (Int × Int) × Nat) :=
  (chunksOf k l).enum.map (fun p => (p.2, p.1 * d))

/-- One firing of the 1-second update-rate interval in App.tsx. -/
def rateTick (now : Int) (st : AppState) : AppState :=
  let timeDiff := now - st.lastUpdateTimestamp
  { st with
    entityUpdateRate :=
      if 0 < timeDiff then
        takeLast 29 st.entityUpdateRate ++ [(1000 : Rat) / (timeDiff : Rat)]
      else st.entityUpdateRate
    lastUpdateTimestamp := now }

/-! ### Helper lemmas about `takeLast` -/

theorem takeLast_length_le (n : Nat) (l : List α) : (takeLast n l).length ≤ n := by
  simp only [takeLast, List.length_drop]
  omega

theorem takeLast_eq_self {n : Nat} {l : List α} (h : l.length ≤ n) :
    takeLast n l = l := by
  simp only [takeLast, Nat.sub_eq_zero_of_le h, List.drop_zero]

theorem reverse_takeLast (n : Nat) (l : List α) :
    (takeLast n l).reverse = l.reverse.take n := by
  simp [takeLast, List.take_reverse]

theorem takeLast_append_left (n : Nat) (xs ys : List α) :
    takeLast n (takeLast n xs ++ ys) = takeLast n (xs ++ ys) := by
  apply List.reverse_injective
  rw [reverse_takeLast, reverse_takeLast, List.reverse_append,
    List.reverse_append, reverse_takeLast,
    List.take_append_eq_append_take, List.take_append_eq_append_take,
    List.take_take, List.length_reverse,
    Nat.min_eq_left (Nat.sub_le n ys.length)]

theorem takeLast_append_singleton (n : Nat) (l : List α) (x : α) :
    takeLast n l ++ [x] = takeLast (n + 1) (l ++ [x]) := by
  simp only [takeLast, List.length_append, List.length_singleton]
  rw [show l.length + 1 - (n + 1) = l.length - n by omega,
    List.drop_append_eq_append_drop,
    show l.length - n - l.length = 0 by omega, List.drop_zero]

/-! ### Helper lemmas about `chunksOf` -/

theorem chunksOf_flatten {k : Nat} (hk : k ≠ 0) (l : List (Int × Int)) :
    (chunksOf k l).flatten = l := by
  have main : ∀ (n : Nat) (l : List (Int × Int)), l.length ≤ n →
      (chunksOf k l).flatten = l := by
    intro n
    induction n with
    | zero =>
      intro l hl
      have : l = [] := List.eq_nil_of_length_eq_zero (Nat.le_zero.mp hl)
      simp [this, chunksOf]
    | succ n ih =>
      intro l hl
      by_cases hnil : l = []
      · simp [hnil, chunksOf]
      · rw [chunksOf, dif_neg (by simp [hnil, hk])]
        have hpos : 0 < l.length := List.length_pos.mpr hnil
        have : (l.drop k).length ≤ n := by
          simp only [List.length_drop]
          omega
        simp only [List.flatten_cons, ih _ this, List.take_append_drop]
  exact main l.length l le_rfl

theorem chunksOf_length {k : Nat} (hk : k ≠ 0) (l : List (Int × Int)) :
    (chunksOf k l).length = (l.length + k - 1) / k := by
  have main : ∀ (n : Nat) (l : List (Int × Int)), l.length ≤ n →
      (chunksOf k l).length = (l.length + k - 1) / k := by
    intro n
    induction n with
    | zero =>
      intro l hl
      have hx : l = [] := List.eq_nil_of_length_eq_zero (Nat.le_zero.mp hl)
      subst hx
      rw [show chunksOf k [] = [] from by simp [chunksOf]]
      simp only [List.length_nil, Nat.zero_add]
      rw [Nat.div_eq_of_lt (by omega)]
    | succ n ih =>
      intro l hl
      by_cases hnil : l = []
      · subst hnil
        rw [show chunksOf k [] = [] from by simp [chunksOf]]
        simp only [List.length_nil, Nat.zero_add]
        rw [Nat.div_eq_of_lt (by omega)]
      · rw [chunksOf, dif_neg (by simp [hnil, hk])]
        have hpos : 0 < l.length := List.length_pos.mpr hnil
        have hdrop : (l.drop k).length ≤ n := by
          simp only [List.length_drop]
          omega
        simp only [List.length_cons, ih _ hdrop, List.length_drop]
        have expand : l.length + k - 1 = (l.length - 1) + k := by omega
        rw [expand, Nat.add_div_right _ (Nat.pos_of_ne_zero hk)]
        congr 1
        by_cases hlt : k < l.length
        · congr 1
          omega
        · rw [show l.length - k = 0 by omega]
          rw [Nat.div_eq_of_lt (by omega), Nat.div_eq_of_lt (by omega)]
  exact main l.length l le_rfl

theorem chunksOf_size_le {k : Nat} (hk : k ≠ 0) (l : List (Int × Int)) :
    ∀ c ∈ chunksOf k l, c.length ≤ k := by
  have main : ∀ (n : Nat) (l : List (Int × Int)), l.length ≤ n →
      ∀ c ∈ chunksOf k l, c.length ≤ k := by
    intro n
    induction n with
    | zero =>
      intro l hl c hc
      have : l = [] := List.eq_nil_of_length_eq_zero (Nat.le_zero.mp hl)
      subst this
      simp [chunksOf] at hc
    | succ n ih =>
      intro l hl c hc
      by_cases hnil : l = []
      · subst hnil
        simp [chunksOf] at hc
      · rw [chunksOf, dif_neg (by simp [hnil, hk])] at hc
        have hpos : 0 < l.length := List.length_pos.mpr hnil
        have hdrop : (l.drop k).length ≤ n := by
          simp only [List.length_drop]
          omega
        rcases List.mem_cons.mp hc with h | h
        · subst h
          simp only [List.length_take]
          exact Nat.min_le_left k l.length
        · exact ih _ hdrop c h
  exact main l.length l le_rfl

/-! ### Claim C2 -/

/-- Claim C2, counterexample: decoding the packed value `0x1a2b3` (kind
nibble `a` = 10, outside the `Powerup` enum) does not produce any error:
`parseTileModel` silently stores the out-of-range value 10 in the
`powerup` field of a fully formed `Tile` record. -/
theorem powerup_kind_coerced_cex :
    (parseTileModel ['0', 'x', '1', 'a', '2', 'b', '3'] none none 0).powerup
        = some 10 ∧
      ¬ knownPowerup
        (parseTileModel ['0', 'x', '1', 'a', '2', 'b', '3'] none none 0).powerup ∧
      (parseTileModel ['0', 'x', '1', 'a', '2', 'b', '3'] none none 0).address
        = ['0', 'x', '1'] ∧
      (parseTileModel ['0', 'x', '1', 'a', '2', 'b', '3'] none none 0).powerupValue
        = some 43 ∧
      (parseTileModel ['0', 'x', '1', 'a', '2', 'b', '3'] none none 0).team
        = some 3 := by
  refine ⟨by decide, by decide, by decide, by decide, by decide⟩

/-- Claim C2 (amended): for every non-sentinel packed-state string whose
masked address is not `0x0`, decoding performs no range check on the
powerup-kind nibble: the integer parsed from the nibble at offset
`length-4` is stored directly in the `Tile` record (in particular the
packed value `0x1a2b3` decodes to kind 10, with no `DecodeError`). -/
theorem powerup_kind_coerced (packed : List Char) (xv yv : Option Int)
    (hi : Int) (h1 : packed ≠ ['0', 'x', '0'])
    (h2 : maskAddress packed ≠ ['0', 'x', '0']) :
    (parseTileModel packed xv yv hi).powerup =
      jsParseIntHex
        (jsSubstring packed ((packed.length : Int) - 4)
          ((packed.length : Int) - 3)) := by
  simp [parseTileModel, h1, h2]

/-- Witness for `powerup_kind_coerced` at the packed value `0x1a2b3`. -/
theorem powerup_kind_coerced_witness :
    (parseTileModel ['0', 'x', '1', 'a', '2', 'b', '3'] none none 0).powerup =
      jsParseIntHex
        (jsSubstring ['0', 'x', '1', 'a', '2', 'b', '3']
          (((['0', 'x', '1', 'a', '2', 'b', '3'] : List Char).length : Int) - 4)
          (((['0', 'x', '1', 'a', '2', 'b', '3'] : List Char).length : Int) - 3)) :=
  powerup_kind_coerced ['0', 'x', '1', 'a', '2', 'b', '3'] none none 0
    (by decide) (by decide)

/-! ### Claim C3 -/

/-- Claim C3, counterexample: for an event with no explicit `x`/`y` fields
whose key is absent from the lookup table (`indexOf = -1`), decoding does
not report any error: it silently produces the coordinates
`(Math.floor(-1/256), -1 % 256) = (-1, -1)` in a fully formed `Tile`. -/
theorem unknown_key_defaults_cex :
    (parseTileModel ['0', 'x', '1', 'a', '2', 'b', '3'] none none (-1)).x
        = -1 ∧
      (parseTileModel ['0', 'x', '1', 'a', '2', 'b', '3'] none none (-1)).y
        = -1 ∧
      (parseTileModel ['0', 'x', '1', 'a', '2', 'b', '3'] none none (-1)).address
        = ['0', 'x', '1'] := by
  refine ⟨by decide, by decide, by decide⟩

/-- Claim C3 (amended): when the payload has no explicit coordinates the
decoder always uses `(Math.floor(i/256), i % 256)` where `i` is the key's
linear index; for a key present at index `i ≥ 0` this is
`(i / 256, i mod 256)` as the claim states, but for an absent key
(`i = -1`) the coordinates silently default to `(-1, -1)` instead of a
`DecodeError`. -/
theorem coords_from_key_index (packed : List Char) (hi : Int) :
    ((parseTileModel packed none none hi).x = Int.fdiv hi 256 ∧
        (parseTileModel packed none none hi).y = Int.tmod hi 256) ∧
      (hi = -1 →
        (parseTileModel packed none none hi).x = -1 ∧
          (parseTileModel packed none none hi).y = -1) ∧
      (∀ i : Nat, hi = (i : Int) →
        (parseTileModel packed none none hi).x = ((i / 256 : Nat) : Int) ∧
          (parseTileModel packed none none hi).y = ((i % 256 : Nat) : Int)) := by
  refine ⟨⟨by simp [parseTileModel], by simp [parseTileModel]⟩, ?_, ?_⟩
  · rintro rfl
    exact ⟨by simp [parseTileModel], by simp [parseTileModel]; decide⟩
  · rintro i rfl
    constructor
    · simp only [parseTileModel, Option.getD_none]
      exact (Int.ofNat_fdiv i 256).symm
    · simp only [parseTileModel, Option.getD_none]
      exact (Int.ofNat_tmod i 256).symm

/-- Witness for `coords_from_key_index`: the absent-key case at `-1` and
the present-key case at index 300. -/
theorem coords_from_key_index_witness :
    ((parseTileModel ['0', 'x', '5'] none none (-1)).x = -1 ∧
        (parseTileModel ['0', 'x', '5'] none none (-1)).y = -1) ∧
      ((parseTileModel ['0', 'x', '5'] none none 300).x
          = ((300 / 256 : Nat) : Int) ∧
        (parseTileModel ['0', 'x', '5'] none none 300).y
          = ((300 % 256 : Nat) : Int)) :=
  ⟨(coords_from_key_index ['0', 'x', '5'] (-1)).2.1 rfl,
    (coords_from_key_index ['0', 'x', '5'] 300).2.2 300 rfl⟩

/-! ### Claim C4 -/

/-- Claim C4, counterexample: the packed string `0x00` also denotes the
all-zero value, but the decoder's sentinel test is the literal string
comparison `packedFlipped !== '0x0'`, so `0x00` is decoded through the
general path: the owner comes out as `0x` (not the unowned sentinel
`0x0`) and the powerup value is `parseInt("x0", 16) = NaN`, not 0. -/
theorem zero_padded_not_sentinel_cex :
    (parseTileModel ['0', 'x', '0', '0'] none none 0).address = ['0', 'x'] ∧
      (parseTileModel ['0', 'x', '0', '0'] none none 0).address
        ≠ ['0', 'x', '0'] ∧
      (parseTileModel ['0', 'x', '0', '0'] none none 0).powerupValue = none ∧
      (parseTileModel ['0', 'x', '0', '0'] none none 0).powerup = some 0 ∧
      (parseTileModel ['0', 'x', '0', '0'] none none 0).team = some 0 := by
  refine ⟨by decide, by decide, by decide, by decide, by decide⟩

/-- Claim C4 (amended): only the packed-state string that is literally
`0x0` is treated as the unowned sentinel; for it, decoding always yields
`owner = 0x0` (unowned), `powerupKind = None` (0), `powerupValue = 0` and
`team = 0`.  Other spellings of the all-zero value, such as `0x00`, are
not recognized as the sentinel. -/
theorem sentinel_decode (xv yv : Option Int) (hi : Int) :
    (parseTileModel ['0', 'x', '0'] xv yv hi).address = ['0', 'x', '0'] ∧
      (parseTileModel ['0', 'x', '0'] xv yv hi).powerup = some 0 ∧
      (parseTileModel ['0', 'x', '0'] xv yv hi).powerupValue = some 0 ∧
      (parseTileModel ['0', 'x', '0'] xv yv hi).team = some 0 := by
  refine ⟨?_, ?_, ?_, ?_⟩ <;> simp [parseTileModel]

/-! ### Helper lemmas about `handleEntityUpdated` -/

theorem handleEntityUpdated_pending_of_not_admit
    (account : Option (List Char)) (sf r : Rat) (now : Int) (tile : Tile)
    (st : AppState) (hno : ¬ (tile.address = ['0', 'x', '0'] ∧ r < sf)) :
    (handleEntityUpdated account sf r now tile st).pendingFlips
      = st.pendingFlips := by
  simp only [handleEntityUpdated]
  rw [if_neg hno]
  split <;> rfl

theorem handleEntityUpdated_pending_of_admit
    (account : Option (List Char)) (sf r : Rat) (now : Int) (tile : Tile)
    (st : AppState) (hadm : tile.address = ['0', 'x', '0'] ∧ r < sf) :
    (handleEntityUpdated account sf r now tile st).pendingFlips
      = st.pendingFlips ++ [(tile.x, tile.y)] := by
  simp only [handleEntityUpdated]
  rw [if_pos hadm]
  split <;> rfl

/-! ### Claim C10 -/

/-- Claim C10 (confirmed): a chunk dispatch with no connected account or
with an empty coordinate list returns immediately: the whole application
state (metrics, history, position sets, pending queue, transaction log) is
returned unchanged, and in particular the dropped chunk is not recorded as
a failure. -/
theorem dropped_dispatch_noop (account : Option (List Char))
    (flips : List (Int × Int)) (startTime : Int) (outcome : FlipOutcome)
    (st : AppState) (h : account = none ∨ flips = []) :
    executeFlips account flips startTime outcome st = st := by
  rw [executeFlips.eq_def, if_pos h]

/-- Witness for `dropped_dispatch_noop`: a failure-bound dispatch with no
account, and a success-bound dispatch with an empty list. -/
theorem dropped_dispatch_noop_witness :
    executeFlips none [(1, 2)] 0 (.failure 5) initialState = initialState ∧
      executeFlips (some ['a']) [] 0 (.success ['h'] 5) initialState
        = initialState :=
  ⟨dropped_dispatch_noop none [(1, 2)] 0 (.failure 5) initialState
      (Or.inl rfl),
    dropped_dispatch_noop (some ['a']) [] 0 (.success ['h'] 5) initialState
      (Or.inr rfl)⟩

/-! ### Claim C7 -/

/-- Claim C7 (confirmed): when a chunk submission fails, `totalFlips` and
`failedFlips` each grow by the chunk size, one `success = false` history
record is appended per item (the ring stays capped at 100), and the
average response time, the success count, the powerup statistics, the
pending/flipped position sets and the pending queue are all unchanged. -/
theorem chunk_failure_accounting (a : List Char) (flips : List (Int × Int))
    (startTime resultTime : Int) (st : AppState) (hne : flips ≠ []) :
    (executeFlips (some a) flips startTime (.failure resultTime) st).metrics.totalFlips
        = st.metrics.totalFlips + flips.length ∧
      (executeFlips (some a) flips startTime (.failure resultTime) st).metrics.failedFlips
        = st.metrics.failedFlips + flips.length ∧
      (executeFlips (some a) flips startTime (.failure resultTime) st).metrics.flipHistory
        = takeLast 100 (st.metrics.flipHistory ++
            flips.map (fun _ => failRecord resultTime)) ∧
      (executeFlips (some a) flips startTime (.failure resultTime) st).metrics.averageResponseTime
        = st.metrics.averageResponseTime ∧
      (executeFlips (some a) flips startTime (.failure resultTime) st).metrics.successfulFlips
        = st.metrics.successfulFlips ∧
      (executeFlips (some a) flips startTime (.failure resultTime) st).metrics.powerups
        = st.metrics.powerups ∧
      (executeFlips (some a) flips startTime (.failure resultTime) st).tilePosPending
        = st.tilePosPending ∧
      (executeFlips (some a) flips startTime (.failure resultTime) st).tilePosFlipped
        = st.tilePosFlipped ∧
      (executeFlips (some a) flips startTime (.failure resultTime) st).pendingFlips
        = st.pendingFlips := by
  simp [executeFlips, hne]

/-- Witness for `chunk_failure_accounting` on a concrete two-item chunk. -/
theorem chunk_failure_accounting_witness :
    (executeFlips (some ['a']) [(0, 0), (1, 1)] 0 (.failure 7) initialState).metrics.totalFlips
        = initialState.metrics.totalFlips + 2 ∧
      (executeFlips (some ['a']) [(0, 0), (1, 1)] 0 (.failure 7) initialState).metrics.failedFlips
        = initialState.metrics.failedFlips + 2 ∧
      (executeFlips (some ['a']) [(0, 0), (1, 1)] 0 (.failure 7) initialState).metrics.flipHistory
        = takeLast 100 (initialState.metrics.flipHistory ++
            [(0, 0), (1, 1)].map (fun _ => failRecord 7)) ∧
      (executeFlips (some ['a']) [(0, 0), (1, 1)] 0 (.failure 7) initialState).metrics.averageResponseTime
        = initialState.metrics.averageResponseTime ∧
      (executeFlips (some ['a']) [(0, 0), (1, 1)] 0 (.failure 7) initialState).metrics.successfulFlips
        = initialState.metrics.successfulFlips ∧
      (executeFlips (some ['a']) [(0, 0), (1, 1)] 0 (.failure 7) initialState).metrics.powerups
        = initialState.metrics.powerups ∧
      (executeFlips (some ['a']) [(0, 0), (1, 1)] 0 (.failure 7) initialState).tilePosPending
        = initialState.tilePosPending ∧
      (executeFlips (some ['a']) [(0, 0), (1, 1)] 0 (.failure 7) initialState).tilePosFlipped
        = initialState.tilePosFlipped ∧
      (executeFlips (some ['a']) [(0, 0), (1, 1)] 0 (.failure 7) initialState).pendingFlips
        = initialState.pendingFlips := by
  have h2 : [(0, 0), (1, 1)].length = 2 := rfl
  exact h2 ▸ chunk_failure_accounting ['a'] [(0, 0), (1, 1)] 0 7 initialState
    (by decide)

/-! ### Claim C6 -/

/-- Claim C6 (confirmed): with `sampleFactor = 0` no update is ever
admitted to the pending queue, however many events arrive (for any
sequence of events whose random draws are all `≥ 0`, folding the handler
leaves `pendingFlips` unchanged); with `sampleFactor = 1` every decoded
update whose owner is the unowned sentinel `0x0` is admitted (any random
draw `< 1` appends its coordinates to the queue). -/
theorem sample_factor_boundaries :
    (∀ (account : Option (List Char)) (events : List (Tile × Rat × Int))
        (st : AppState),
        (∀ e ∈ events, 0 ≤ e.2.1) →
        (events.foldl
            (fun s e => handleEntityUpdated account 0 e.2.1 e.2.2 e.1 s)
            st).pendingFlips
          = st.pendingFlips) ∧
      (∀ (account : Option (List Char)) (rand : Rat) (now : Int)
          (tile : Tile) (st : AppState),
        rand < 1 → tile.address = ['0', 'x', '0'] →
        (handleEntityUpdated account 1 rand now tile st).pendingFlips
          = st.pendingFlips ++ [(tile.x, tile.y)]) := by
  constructor
  · intro account events
    induction events with
    | nil => intro st _; rfl
    | cons e es ih =>
      intro st hr
      have h0 : 0 ≤ e.2.1 := hr e (List.mem_cons_self e es)
      simp only [List.foldl_cons]
      rw [ih _ (fun x hx => hr x (List.mem_cons_of_mem e hx))]
      exact handleEntityUpdated_pending_of_not_admit account 0 e.2.1 e.2.2 e.1
        st (fun hadm => absurd hadm.2 (not_lt.mpr h0))
  · intro account rand now tile st hlt haddr
    exact handleEntityUpdated_pending_of_admit account 1 rand now tile st
      ⟨haddr, hlt⟩

/-- Witness for `sample_factor_boundaries`: two events at factor 0 admit
nothing; one unowned tile at factor 1 is admitted. -/
theorem sample_factor_boundaries_witness :
    (([(⟨0, 0, ['0', 'x', '0'], some 0, some 0, some 0⟩, (1 : Rat) / 2, 3),
          (⟨1, 2, ['0', 'x', '0'], some 0, some 0, some 0⟩, 0, 4)].foldl
        (fun s e => handleEntityUpdated (some ['a']) 0 e.2.1 e.2.2 e.1 s)
        initialState).pendingFlips
      = initialState.pendingFlips) ∧
      ((handleEntityUpdated (some ['a']) 1 ((1 : Rat) / 2) 3
            ⟨5, 6, ['0', 'x', '0'], some 0, some 0, some 0⟩
            initialState).pendingFlips
        = initialState.pendingFlips ++ [(5, 6)]) :=
  ⟨sample_factor_boundaries.1 (some ['a']) _ initialState
      (by
        intro e he
        simp only [List.mem_cons, List.not_mem_nil, or_false] at he
        rcases he with rfl | rfl <;> norm_num),
    sample_factor_boundaries.2 (some ['a']) ((1 : Rat) / 2) 3
      ⟨5, 6, ['0', 'x', '0'], some 0, some 0, some 0⟩ initialState
      (by norm_num) rfl⟩

/-! ### Claim C9 -/

/-- Claim C9 (confirmed): on each 1-second tick, when `now` minus the
reference timestamp is positive the sample `1000 / (now - last)` is pushed
into the rate ring, which keeps only the 30 most recent samples (oldest
evicted first: the new ring is the last-30 slice of the old ring plus the
new sample, so its length never exceeds 30); and the reference timestamp
is reset to `now` on every tick, whether or not a sample was produced. -/
theorem rate_tick_spec (now : Int) (st : AppState) :
    (rateTick now st).lastUpdateTimestamp = now ∧
      (0 < now - st.lastUpdateTimestamp →
        (rateTick now st).entityUpdateRate
            = takeLast 30 (st.entityUpdateRate ++
                [(1000 : Rat) / ((now - st.lastUpdateTimestamp : Int) : Rat)]) ∧
          ((rateTick now st).entityUpdateRate).length ≤ 30) ∧
      (¬ 0 < now - st.lastUpdateTimestamp →
        (rateTick now st).entityUpdateRate = st.entityUpdateRate) := by
  refine ⟨rfl, ?_, ?_⟩
  · intro hpos
    have heq : (rateTick now st).entityUpdateRate
        = takeLast 29 st.entityUpdateRate ++
            [(1000 : Rat) / ((now - st.lastUpdateTimestamp : Int) : Rat)] := by
      simp only [rateTick]
      rw [if_pos hpos]
    rw [heq, takeLast_append_singleton]
    exact ⟨rfl, takeLast_length_le _ _⟩
  · intro hneg
    simp only [rateTick]
    rw [if_neg hneg]

/-- Witness for `rate_tick_spec`: a tick at instant 5 from the initial
state (reference timestamp 0) produces a sample. -/
theorem rate_tick_spec_witness :
    (rateTick 5 initialState).lastUpdateTimestamp = 5 ∧
      (rateTick 5 initialState).entityUpdateRate
        = takeLast 30 (initialState.entityUpdateRate ++
            [(1000 : Rat) /
              (((5 : Int) - initialState.lastUpdateTimestamp : Int) : Rat)]) :=
  ⟨(rate_tick_spec 5 initialState).1,
    ((rate_tick_spec 5 initialState).2.1 (by decide)).1⟩

/-! ### Claim C5 -/

theorem drainDispatch_map_fst (k d : Nat) (l : List (Int × Int)) :
    (drainDispatch k d l).map Prod.fst = chunksOf k l := by
  simp only [drainDispatch, List.map_map]
  rw [show (Prod.fst ∘ fun p : Nat × List (Int × Int) => (p.2, p.1 * d))
        = Prod.snd from rfl,
    List.enum_eq_enumFrom, List.enumFrom_map_snd]

theorem drainDispatch_map_snd (k d : Nat) (l : List (Int × Int)) :
    (drainDispatch k d l).map Prod.snd
      = (List.range (chunksOf k l).length).map (fun i => i * d) := by
  simp only [drainDispatch, List.map_map]
  rw [show (Prod.snd ∘ fun p : Nat × List (Int × Int) => (p.2, p.1 * d))
        = (fun i : Nat => i * d) ∘ Prod.fst from rfl,
    ← List.map_map, List.enum_eq_enumFrom, List.enumFrom_map_fst,
    List.range_eq_range']

/-- Claim C5 (confirmed): for `chunkSize = k` with `1 ≤ k ≤ 20`, draining a
pending queue of `n` candidates produces exactly `⌈n/k⌉ = (n + k - 1) / k`
chunks, each of size at most `k`, whose concatenation in dispatch order is
the drained sequence in its original order, and chunk `i` (0-indexed) is
scheduled at delay `i * executionDelay`. -/
theorem drain_cycle_spec (k d : Nat) (l : List (Int × Int)) (h1 : 1 ≤ k)
    (h2 : k ≤ 20) :
    (chunksOf k l).length = (l.length + k - 1) / k ∧
      (∀ c ∈ chunksOf k l, c.length ≤ k) ∧
      (chunksOf k l).flatten = l ∧
      (drainDispatch k d l).map Prod.fst = chunksOf k l ∧
      (drainDispatch k d l).map Prod.snd
        = (List.range (chunksOf k l).length).map (fun i => i * d) := by
  have hk : k ≠ 0 := Nat.one_le_iff_ne_zero.mp h1
  exact ⟨chunksOf_length hk l, chunksOf_size_le hk l, chunksOf_flatten hk l,
    drainDispatch_map_fst k d l, drainDispatch_map_snd k d l⟩

/-- The 25-candidate queue of the C5 scenario. -/
def exampleQueue : List (Int × Int) :=
  (List.range 25).map (fun i => ((i : Int), 0))

/-- Witness for `drain_cycle_spec`: 25 candidates with `chunkSize = 10`
and `executionDelay = 100`. -/
theorem drain_cycle_spec_witness :
    (chunksOf 10 exampleQueue).length = (exampleQueue.length + 10 - 1) / 10 ∧
      (∀ c ∈ chunksOf 10 exampleQueue, c.length ≤ 10) ∧
      (chunksOf 10 exampleQueue).flatten = exampleQueue ∧
      (drainDispatch 10 100 exampleQueue).map Prod.fst
        = chunksOf 10 exampleQueue ∧
      (drainDispatch 10 100 exampleQueue).map Prod.snd
        = (List.range (chunksOf 10 exampleQueue).length).map
            (fun i => i * 100) :=
  drain_cycle_spec 10 100 exampleQueue (by decide) (by decide)

/-! ### Claim C1 -/

/-- One successful chunk submission, as folded over a list of
`(coordinates, completion instant)` pairs with submission instant 0, so
each chunk's measured elapsed time is its completion instant. -/
def successFold (a txHash : List Char)
    (chunks : List (List (Int × Int) × Int)) (st : AppState) : AppState :=
  chunks.foldl
    (fun s c => executeFlips (some a) c.1 0 (.success txHash c.2) s) st

theorem successFold_invariant (a txHash : List Char)
    (chunks : List (List (Int × Int) × Int)) :
    ∀ st : AppState, (∀ c ∈ chunks, c.1 ≠ []) →
      (successFold a txHash chunks st).metrics.totalFlips
          = st.metrics.totalFlips + (chunks.map (fun c => c.1.length)).sum ∧
        (successFold a txHash chunks st).metrics.successfulFlips
          = st.metrics.successfulFlips
              + (chunks.map (fun c => c.1.length)).sum ∧
        (successFold a txHash chunks st).metrics.averageResponseTime
              * ((successFold a txHash chunks st).metrics.totalFlips : Rat)
          = st.metrics.averageResponseTime * (st.metrics.totalFlips : Rat)
              + (chunks.map (fun c => (c.2 : Rat))).sum := by
  induction chunks with
  | nil => intro st _; simp [successFold]
  | cons c cs ih =>
    intro st hne
    have hc : c.1 ≠ [] := hne c (List.mem_cons_self c cs)
    have hstep : successFold a txHash (c :: cs) st
        = successFold a txHash cs
            (executeFlips (some a) c.1 0 (.success txHash c.2) st) := rfl
    set st' := executeFlips (some a) c.1 0 (.success txHash c.2) st with hst'
    have htot : st'.metrics.totalFlips
        = st.metrics.totalFlips + c.1.length := by
      simp [hst', executeFlips, hc]
    have hsucc : st'.metrics.successfulFlips
        = st.metrics.successfulFlips + c.1.length := by
      simp [hst', executeFlips, hc]
    have havg : st'.metrics.averageResponseTime
        = (st.metrics.averageResponseTime * (st.metrics.totalFlips : Rat)
              + ((c.2 : Int) : Rat)) /
            ((st.metrics.totalFlips : Rat) + (c.1.length : Rat)) := by
      simp [hst', executeFlips, hc]
    have ihc := ih st' (fun x hx => hne x (List.mem_cons_of_mem c hx))
    rw [hstep]
    refine ⟨?_, ?_, ?_⟩
    · rw [ihc.1, htot]
      simp only [List.map_cons, List.sum_cons]
      ring
    · rw [ihc.2.1, hsucc]
      simp only [List.map_cons, List.sum_cons]
      ring
    · rw [ihc.2.2, havg, htot]
      have hlenpos : 0 < c.1.length := List.length_pos.mpr hc
      have hz : (st.metrics.totalFlips : Rat) + (c.1.length : Rat) ≠ 0 := by
        have : (0 : Rat) < (st.metrics.totalFlips : Rat) + (c.1.length : Rat) := by
          have h1 : (0 : Rat) ≤ (st.metrics.totalFlips : Rat) :=
            Nat.cast_nonneg _
          have h2 : (0 : Rat) < (c.1.length : Rat) := by
            exact_mod_cast hlenpos
          linarith
        exact ne_of_gt this
      rw [Nat.cast_add]
      rw [div_mul_cancel₀ _ hz]
      simp only [List.map_cons, List.sum_cons]
      ring

/-- Claim C1 (amended): starting from the initial metrics state, after a
sequence of successful chunk submissions `averageResponseTime` equals the
sum of the per-chunk elapsed times divided by the total item count — each
chunk's elapsed time is counted once, not once per item, so it is not the
arithmetic mean of the per-item elapsed times; in the claim's scenario
(one 3-item chunk, 120 ms) it is 40, not 120. -/
theorem avg_running_mean (a txHash : List Char)
    (chunks : List (List (Int × Int) × Int))
    (hne : ∀ c ∈ chunks, c.1 ≠ []) :
    (successFold a txHash chunks initialState).metrics.totalFlips
        = (chunks.map (fun c => c.1.length)).sum ∧
      (successFold a txHash chunks initialState).metrics.successfulFlips
        = (chunks.map (fun c => c.1.length)).sum ∧
      (successFold a txHash chunks initialState).metrics.averageResponseTime
        = (chunks.map (fun c => (c.2 : Rat))).sum /
            (((chunks.map (fun c => c.1.length)).sum : Nat) : Rat) := by
  have h := successFold_invariant a txHash chunks initialState hne
  have h0tot : initialState.metrics.totalFlips = 0 := rfl
  have h0avg : initialState.metrics.averageResponseTime = 0 := rfl
  refine ⟨by rw [h.1, h0tot, Nat.zero_add],
    by
      rw [h.2.1, show initialState.metrics.successfulFlips = 0 from rfl,
        Nat.zero_add], ?_⟩
  have key := h.2.2
  rw [h.1, h0tot, h0avg, Nat.zero_add] at key
  simp only [Nat.cast_zero, mul_zero, zero_mul, zero_add] at key
  by_cases hz : (chunks.map (fun c => c.1.length)).sum = 0
  · have hchunks : chunks = [] := by
      cases chunks with
      | nil => rfl
      | cons c cs =>
        exfalso
        have hc : c.1 ≠ [] := hne c (List.mem_cons_self c cs)
        have : 0 < c.1.length := List.length_pos.mpr hc
        simp only [List.map_cons, List.sum_cons] at hz
        omega
    subst hchunks
    simp only [successFold, List.foldl_nil, List.map_nil, List.sum_nil]
    rw [h0avg]
    simp
  · have hcast : (((chunks.map (fun c => c.1.length)).sum : Nat) : Rat) ≠ 0 := by
      exact_mod_cast hz
    rw [eq_div_iff hcast]
    exact key

/-- Claim C1, counterexample: one successful chunk of 3 items whose
elapsed time is 120 ms, from the initial state, yields `totalFlips = 3`
and `successfulFlips = 3` as the claim states, but
`averageResponseTime = (0*0 + 120) / (0+3) = 40`, not the per-item mean
120: the elapsed time is added once per chunk, not once per item. -/
theorem avg_running_mean_cex :
    (executeFlips (some ['a']) [(0, 0), (1, 0), (2, 0)] 0
          (.success ['h'] 120) initialState).metrics.averageResponseTime
        = 40 ∧
      (executeFlips (some ['a']) [(0, 0), (1, 0), (2, 0)] 0
          (.success ['h'] 120) initialState).metrics.totalFlips = 3 ∧
      (executeFlips (some ['a']) [(0, 0), (1, 0), (2, 0)] 0
          (.success ['h'] 120) initialState).metrics.successfulFlips = 3 ∧
      (40 : Rat) ≠ 120 := by
  refine ⟨?_, ?_, ?_, by norm_num⟩ <;>
    simp +decide [executeFlips, initialState] <;> norm_num

/-- Witness for `avg_running_mean`: the scenario chunk list (one 3-item
chunk completing at instant 120), for which the formula gives
`120 / 3 = 40`. -/
theorem avg_running_mean_witness :
    (successFold ['a'] ['h'] [([(0, 0), (1, 0), (2, 0)], 120)]
          initialState).metrics.totalFlips
        = ([([(0, 0), (1, 0), (2, 0)], 120)].map
            (fun c => c.1.length)).sum ∧
      (successFold ['a'] ['h'] [([(0, 0), (1, 0), (2, 0)], 120)]
          initialState).metrics.successfulFlips
        = ([([(0, 0), (1, 0), (2, 0)], 120)].map
            (fun c => c.1.length)).sum ∧
      (successFold ['a'] ['h'] [([(0, 0), (1, 0), (2, 0)], 120)]
          initialState).metrics.averageResponseTime
        = ([([(0, 0), (1, 0), (2, 0)], 120)].map
              (fun c => ((c.2 : Int) : Rat))).sum /
            ((([([(0, 0), (1, 0), (2, 0)], 120)].map
                (fun c => c.1.length)).sum : Nat) : Rat) :=
  avg_running_mean ['a'] ['h'] [([(0, 0), (1, 0), (2, 0)], 120)]
    (by intro c hc; simp only [List.mem_singleton] at hc; subst hc; decide)

/-! ### Claim C8 -/

/-- The three operations of App.tsx that append to `metrics.flipHistory`:
a self-owned update observed by `handleEntityUpdated`, a successful chunk
submission, and a failed chunk submission. -/
inductive HistOp where
  | selfOwned (account : List Char) (sampleFactor rand : Rat) (now : Int)
      (tile : Tile)
  | chunkSuccess (account txHash : List Char) (flips : List (Int × Int))
      (startTime resultTime : Int)
  | chunkFailure (account : List Char) (flips : List (Int × Int))
      (startTime resultTime : Int)

/-- Apply a history-appending operation through the real App.tsx
state-transformers. -/
def applyHistOp (st : AppState) : HistOp → AppState
  | .selfOwned a sf r now tile => handleEntityUpdated (some a) sf r now tile st
  | .chunkSuccess a txHash flips s rt =>
      executeFlips (some a) flips s (.success txHash rt) st
  | .chunkFailure a flips s rt => executeFlips (some a) flips s (.failure rt) st

/-- Guard under which the operation actually reaches its history-append
site: the decoded tile carries the local address, respectively the chunk
is dispatched with an account and a non-empty list. -/
def histOpOk : HistOp → Prop
  | .selfOwned a _ _ _ tile => tile.address = a
  | .chunkSuccess _ _ flips _ _ => flips ≠ []
  | .chunkFailure _ flips _ _ => flips ≠ []

/-- The records an operation appends to the history. -/
def histOpNew : HistOp → List FlipRecord
  | .selfOwned _ _ _ now tile =>
      [⟨now, true, some tile.powerup, some tile.powerupValue⟩]
  | .chunkSuccess _ _ flips _ rt => flips.map (fun _ => successRecord rt)
  | .chunkFailure _ flips _ rt => flips.map (fun _ => failRecord rt)

theorem applyHistOp_history (st : AppState) (op : HistOp)
    (hok : histOpOk op) :
    (applyHistOp st op).metrics.flipHistory
      = takeLast 100 (st.metrics.flipHistory ++ histOpNew op) := by
  cases op with
  | selfOwned a sf r now tile =>
    have haddr : (some a : Option (List Char)) = some tile.address := by
      rw [hok]
    simp only [applyHistOp, histOpNew, handleEntityUpdated]
    rw [if_pos haddr]
    split <;> rfl
  | chunkSuccess a txHash flips s rt =>
    have hne : flips ≠ [] := hok
    simp [applyHistOp, histOpNew, executeFlips, hne]
  | chunkFailure a flips s rt =>
    have hne : flips ≠ [] := hok
    simp [applyHistOp, histOpNew, executeFlips, hne]

theorem foldl_applyHistOp_history (ops : List HistOp) :
    ∀ st : AppState, (∀ op ∈ ops, histOpOk op) →
      st.metrics.flipHistory.length ≤ 100 →
      (ops.foldl applyHistOp st).metrics.flipHistory
        = takeLast 100
            (st.metrics.flipHistory ++ (ops.map histOpNew).flatten) := by
  induction ops with
  | nil =>
    intro st _ hlen
    simp only [List.foldl_nil, List.map_nil, List.flatten_nil,
      List.append_nil]
    exact (takeLast_eq_self hlen).symm
  | cons op ops ih =>
    intro st hok hlen
    have hop : histOpOk op := hok op (List.mem_cons_self op ops)
    have hstep := applyHistOp_history st op hop
    simp only [List.foldl_cons, List.map_cons, List.flatten_cons]
    rw [ih (applyHistOp st op)
        (fun o ho => hok o (List.mem_cons_of_mem op ho))
        (by rw [hstep]; exact takeLast_length_le _ _),
      hstep, takeLast_append_left, List.append_assoc]

/-- Claim C8 (confirmed): across every sequence of operations that appends
to the flip history (self-owned update records, per-item success records,
per-item failure records), starting from the initial state, the history
holds at most 100 records and always equals the last-100 slice of the full
concatenation of all appended records — the 100 most recent, oldest
evicted first. -/
theorem flip_history_ring (ops : List HistOp)
    (hok : ∀ op ∈ ops, histOpOk op) :
    ((ops.foldl applyHistOp initialState).metrics.flipHistory).length ≤ 100 ∧
      (ops.foldl applyHistOp initialState).metrics.flipHistory
        = takeLast 100 ((ops.map histOpNew).flatten) := by
  have h := foldl_applyHistOp_history ops initialState hok
    (by rw [show initialState.metrics.flipHistory = [] from rfl]; simp)
  rw [show initialState.metrics.flipHistory = [] from rfl,
    List.nil_append] at h
  exact ⟨h ▸ takeLast_length_le _ _, h⟩

/-- A concrete operation sequence for the `flip_history_ring` witness: a
self-owned update, then a successful 2-item chunk, then a failed 1-item
chunk. -/
def exampleHistOps : List HistOp :=
  [.selfOwned ['a'] 1 0 5 ⟨0, 0, ['a'], some 1, some 9, some 2⟩,
    .chunkSuccess ['a'] ['h'] [(0, 0), (1, 0)] 5 9,
    .chunkFailure ['a'] [(2, 2)] 9 12]

/-- Witness for `flip_history_ring` on `exampleHistOps`. -/
theorem flip_history_ring_witness :
    ((exampleHistOps.foldl applyHistOp initialState).metrics.flipHistory).length
        ≤ 100 ∧
      (exampleHistOps.foldl applyHistOp initialState).metrics.flipHistory
        = takeLast 100 ((exampleHistOps.map histOpNew).flatten) :=
  flip_history_ring exampleHistOps
    (by
      intro op hop
      simp only [exampleHistOps, List.mem_cons, List.not_mem_nil,
        or_false] at hop
      rcases hop with rfl | rfl | rfl <;> simp [histOpOk])

end Flipbot
